import Mathlib

/-!
Verification of the file-patch engine in src/infra/tools/file-tool.ts.

The source file contains two generations of the FileToolImpl class.  The
later generation (the one the specification describes in detail) supports
the seven operations insert_block, delete_range, replace_range,
insert_after, insert_before, replace_content and delete_content, and its
content-search helpers report the total number of matches found.  The
earlier generation's findAndReplaceContent / findAndDeleteContent return
as soon as the requested occurrence is located; they are embedded here as
the V1 functions for the refinement claim.

JavaScript strings and arrays are modelled as Lean String and List String;
JavaScript numbers appearing in operations (line numbers, occurrences) are
modelled as Int (they may be negative); internal counters that only ever
increase from 0 are Nat.  A thrown Error is modelled as Except.error with
a structured value holding the data interpolated into the thrown message.
-/

/-- Model of JavaScript content.split("\n"): split on each newline
character, never dropping empty pieces.  Auxiliary: acc is the reversed
current piece. -/
def splitNlAux : List Char → List Char → List String
  | [], acc => [String.mk acc.reverse]
  | c :: rest, acc =>
    if c = '\n' then String.mk acc.reverse :: splitNlAux rest []
    else splitNlAux rest (c :: acc)

/-- content.split("\n") from the source (both applyDiff's initial split and
the oldContent/newContent/content splits inside the search helpers). -/
def splitNl (s : String) : List String :=
  splitNlAux s.toList []

/-- Model of JavaScript lines.join("\n"). -/
def joinNl : List String → String
  | [] => ""
  | [l] => l
  | l :: rest => l ++ "\n" ++ joinNl rest

/-- Substring test on character lists: pat occurs contiguously in the
second list. -/
def listIncl (pat : List Char) : List Char → Bool
  | [] => pat.isPrefixOf []
  | c :: rest => pat.isPrefixOf (c :: rest) || listIncl pat rest

/-- Model of JavaScript line.includes(searchContent): searchContent occurs
in line as a contiguous substring. -/
def jsIncludes (line searchContent : String) : Bool :=
  listIncl searchContent.toList line.toList

instance {e a : Type} [DecidableEq e] [DecidableEq a] : DecidableEq (Except e a) := fun x y =>
  match x, y with
  | Except.ok u, Except.ok v =>
    match decEq u v with
    | isTrue h => isTrue (by rw [h])
    | isFalse h => isFalse (by intro hh; cases hh; exact h rfl)
  | Except.error u, Except.error v =>
    match decEq u v with
    | isTrue h => isTrue (by rw [h])
    | isFalse h => isFalse (by intro hh; cases hh; exact h rfl)
  | Except.ok _, Except.error _ => isFalse (by intro hh; cases hh)
  | Except.error _, Except.ok _ => isFalse (by intro hh; cases hh)

/-- Return value of the later generation's findContentLine: the 0-based
index of the requested occurrence (-1 if not found) and the total number
of matching lines. -/
structure FindLineResult where
  index : Int
  totalMatches : Nat
deriving DecidableEq

/-- The scanning loop of the later findContentLine (source lines 748-768):
walk the lines with index i, counting lines that contain searchContent;
when the count reaches occurrence and no index was recorded yet, record
the current index.  Returns the recorded index (-1 if never recorded) and
the final count. -/
def findContentLineAux (searchContent : String) (occurrence : Int) :
    List String → Nat → Nat → Int → FindLineResult
  | [], _, count, foundIndex => { index := foundIndex, totalMatches := count }
  | line :: rest, i, count, foundIndex =>
    if jsIncludes line searchContent then
      findContentLineAux searchContent occurrence rest (i + 1) (count + 1)
        (if ((count + 1 : Nat) : Int) = occurrence ∧ foundIndex = -1 then (i : Int)
         else foundIndex)
    else
      findContentLineAux searchContent occurrence rest (i + 1) count foundIndex

/-- The later generation's findContentLine. -/
def findContentLine (lines : List String) (searchContent : String) (occurrence : Int) :
    FindLineResult :=
  findContentLineAux searchContent occurrence lines 0 0 (-1)

/-- The scanning loop shared (textually identical) by the later
findAndReplaceContent (source lines 792-814) and findAndDeleteContent
(source lines 848-870): starting at position idx, test whether the pattern
pat matches the lines from the current position on (the inner for loop is
exactly an isPrefixOf test on the remaining suffix); on a match advance by
pat.length, recording the match position when the running count reaches
occurrence; otherwise advance by one line.  In the source pat always comes
from String.split("\n") and is therefore nonempty. -/
def scanContent (pat : List String) (occurrence : Int) :
    List String → Nat → Nat → Int → Nat × Int
  | [], _, totalMatches, targetIndex => (totalMatches, targetIndex)
  | l :: rest, idx, totalMatches, targetIndex =>
    if pat.isPrefixOf (l :: rest) then
      scanContent pat occurrence (rest.drop (pat.length - 1)) (idx + pat.length)
        (totalMatches + 1)
        (if ((totalMatches + 1 : Nat) : Int) = occurrence then (idx : Int) else targetIndex)
    else
      scanContent pat occurrence rest (idx + 1) totalMatches targetIndex
termination_by remaining _ _ _ => remaining.length
decreasing_by
  all_goals simp [List.length_drop]
  omega

/-- Return value of the later findAndReplaceContent / findAndDeleteContent. -/
structure ReplaceResult where
  lines : List String
  found : Bool
  totalMatches : Nat
deriving DecidableEq

/-- The later generation's findAndReplaceContent (source lines 778-827):
scan the whole sequence counting non-overlapping matches of
oldContent.split("\n"); if the occurrence-th match was seen at position
targetIndex, substitute newContent.split("\n") for the matched run
(slice before ++ new lines ++ slice after). -/
def findAndReplaceContent (lines : List String) (oldContent newContent : String)
    (occurrence : Int) : ReplaceResult :=
  let oldContentLines := splitNl oldContent
  let newContentLines := splitNl newContent
  let scanned := scanContent oldContentLines occurrence lines 0 0 (-1)
  if scanned.2 ≠ -1 then
    { lines := lines.take scanned.2.toNat ++ newContentLines ++
        lines.drop (scanned.2.toNat + oldContentLines.length),
      found := true, totalMatches := scanned.1 }
  else
    { lines := lines, found := false, totalMatches := scanned.1 }

/-- The later generation's findAndDeleteContent (source lines 836-882):
same scan; on success drop the matched run. -/
def findAndDeleteContent (lines : List String) (content : String)
    (occurrence : Int) : ReplaceResult :=
  let contentLines := splitNl content
  let scanned := scanContent contentLines occurrence lines 0 0 (-1)
  if scanned.2 ≠ -1 then
    { lines := lines.take scanned.2.toNat ++
        lines.drop (scanned.2.toNat + contentLines.length),
      found := true, totalMatches := scanned.1 }
  else
    { lines := lines, found := false, totalMatches := scanned.1 }

/-- The scanning loop shared (textually identical) by the earlier
generation's findAndReplaceContent (source lines 365-409) and
findAndDeleteContent (source lines 418-458): same advance discipline as
scanContent, but the loop returns the match position as soon as the
running count reaches occurrence, without finishing the scan. -/
def scanV1 (pat : List String) (occurrence : Int) :
    List String → Nat → Nat → Option Nat
  | [], _, _ => none
  | l :: rest, idx, count =>
    if pat.isPrefixOf (l :: rest) then
      if ((count + 1 : Nat) : Int) = occurrence then some idx
      else scanV1 pat occurrence (rest.drop (pat.length - 1)) (idx + pat.length) (count + 1)
    else
      scanV1 pat occurrence rest (idx + 1) count
termination_by remaining _ _ => remaining.length
decreasing_by
  all_goals simp [List.length_drop]
  omega

/-- Return value of the earlier findAndReplaceContent / findAndDeleteContent
(no total-match count). -/
structure ReplaceResultV1 where
  lines : List String
  found : Bool
deriving DecidableEq

/-- The earlier generation's findAndReplaceContent (source lines 365-409).
The source also computes an unused fullText = lines.join("\n"), omitted
here. -/
def findAndReplaceContentV1 (lines : List String) (oldContent newContent : String)
    (occurrence : Int) : ReplaceResultV1 :=
  let oldContentLines := splitNl oldContent
  let newContentLines := splitNl newContent
  match scanV1 oldContentLines occurrence lines 0 0 with
  | some idx =>
    { lines := lines.take idx ++ newContentLines ++
        lines.drop (idx + oldContentLines.length), found := true }
  | none => { lines := lines, found := false }

/-- The earlier generation's findAndDeleteContent (source lines 418-458). -/
def findAndDeleteContentV1 (lines : List String) (content : String)
    (occurrence : Int) : ReplaceResultV1 :=
  let contentLines := splitNl content
  match scanV1 contentLines occurrence lines 0 0 with
  | some idx =>
    { lines := lines.take idx ++ lines.drop (idx + contentLines.length), found := true }
  | none => { lines := lines, found := false }

/-- The later generation's DiffOperation union (source lines 467-526).
An absent occurrence field is Option.none (the code applies the default
?? 1 at use sites). -/
inductive DiffOperation where
  | insert_block (lineNumber : Int) (lines : List String)
  | delete_range (startLine endLine : Int)
  | replace_range (startLine endLine : Int) (lines : List String)
  | insert_after (searchContent content : String) (occurrence : Option Int)
  | insert_before (searchContent content : String) (occurrence : Option Int)
  | replace_content (oldContent newContent : String) (occurrence : Option Int)
  | delete_content (content : String) (occurrence : Option Int)
deriving DecidableEq

/-- Structured model of the Error values thrown inside applyDiff's switch:
each constructor holds the operation name and the data interpolated into
the message string (for content searches, the occurrence requested and the
total matches found). -/
inductive ApplyError where
  | outOfBounds (opName : String) (lineNumber : Int) (len : Nat)
  | invalidRange (opName : String) (startLine endLine : Int) (len : Nat)
  | contentNotFound (opName : String) (occurrence : Int) (totalMatches : Nat)
deriving DecidableEq

/-- One arm of the switch inside the later applyDiff (source lines
599-726): validate, then splice.  splice(k, 0, xs) inserts xs at index k
(take k ++ xs ++ drop k); splice(s-1, e-s+1) removes the 0-based indices
s-1 .. e-1, leaving take (s-1) ++ drop e. -/
def applyOp (lines : List String) (op : DiffOperation) : Except ApplyError (List String) :=
  match op with
  | DiffOperation.insert_block lineNumber ls =>
    if lineNumber < 0 ∨ (lines.length : Int) < lineNumber then
      Except.error (ApplyError.outOfBounds "insert_block" lineNumber lines.length)
    else
      Except.ok (lines.take lineNumber.toNat ++ ls ++ lines.drop lineNumber.toNat)
  | DiffOperation.delete_range startLine endLine =>
    if startLine < 1 ∨ (lines.length : Int) < endLine ∨ endLine < startLine then
      Except.error (ApplyError.invalidRange "delete_range" startLine endLine lines.length)
    else
      Except.ok (lines.take (startLine - 1).toNat ++ lines.drop endLine.toNat)
  | DiffOperation.replace_range startLine endLine ls =>
    if startLine < 1 ∨ (lines.length : Int) < endLine ∨ endLine < startLine then
      Except.error (ApplyError.invalidRange "replace_range" startLine endLine lines.length)
    else
      Except.ok (lines.take (startLine - 1).toNat ++ ls ++ lines.drop endLine.toNat)
  | DiffOperation.insert_after searchContent content occurrence =>
    let occ := occurrence.getD 1
    let r := findContentLine lines searchContent occ
    if r.index = -1 then
      Except.error (ApplyError.contentNotFound "insert_after" occ r.totalMatches)
    else
      Except.ok (lines.take (r.index + 1).toNat ++ [content] ++ lines.drop (r.index + 1).toNat)
  | DiffOperation.insert_before searchContent content occurrence =>
    let occ := occurrence.getD 1
    let r := findContentLine lines searchContent occ
    if r.index = -1 then
      Except.error (ApplyError.contentNotFound "insert_before" occ r.totalMatches)
    else
      Except.ok (lines.take r.index.toNat ++ [content] ++ lines.drop r.index.toNat)
  | DiffOperation.replace_content oldContent newContent occurrence =>
    let occ := occurrence.getD 1
    let r := findAndReplaceContent lines oldContent newContent occ
    if r.found then Except.ok r.lines
    else Except.error (ApplyError.contentNotFound "replace_content" occ r.totalMatches)
  | DiffOperation.delete_content content occurrence =>
    let occ := occurrence.getD 1
    let r := findAndDeleteContent lines content occ
    if r.found then Except.ok r.lines
    else Except.error (ApplyError.contentNotFound "delete_content" occ r.totalMatches)

/-- The operation loop of the later applyDiff (source lines 598-727): each
operation runs against the line sequence produced by the previous ones;
the first thrown error aborts the loop. -/
def applyDiff (lines : List String) (ops : List DiffOperation) :
    Except ApplyError (List String) :=
  match ops with
  | [] => Except.ok lines
  | op :: rest =>
    match applyOp lines op with
    | Except.ok lines1 => applyDiff lines1 rest
    | Except.error e => Except.error e

/-- The file content observable after an applyDiff call on a file holding
content (source lines 591-739): the content is split on newline, the
operations run in the try block, and the joined result is written back
only when no operation threw; a throw reaches the catch before the write,
leaving the file with its original content. -/
def fileAfterApplyDiff (content : String) (ops : List DiffOperation) : String :=
  match applyDiff (splitNl content) ops with
  | Except.ok lines => joinNl lines
  | Except.error _ => content

/-- Spec-level count of non-overlapping matches of a line pattern: a match
consumes its full line span before scanning continues; a non-matching
position advances by one line. -/
def countMatches (pat : List String) : List String → Nat
  | [] => 0
  | l :: rest =>
    if pat.isPrefixOf (l :: rest) then 1 + countMatches pat (rest.drop (pat.length - 1))
    else countMatches pat rest
termination_by remaining => remaining.length
decreasing_by
  all_goals simp [List.length_drop]
  omega

/-! ## Helper lemmas about the scanning loops -/

theorem scanContent_fst (pat : List String) (occ : Int) :
    ∀ (rem : List String) (idx tm : Nat) (ti : Int),
    (scanContent pat occ rem idx tm ti).1 = tm + countMatches pat rem := by
  intro rem idx tm ti
  induction rem, idx, tm, ti using scanContent.induct pat occ with
  | case1 idx tm ti => simp [scanContent, countMatches]
  | case2 l rest idx tm ti h ih =>
    simp only [dite_eq_ite] at ih
    rw [scanContent, countMatches]
    simp only [h, if_true]
    rw [ih]
    omega
  | case3 l rest idx tm ti h ih =>
    rw [scanContent, countMatches]
    simp only [h, Bool.false_eq_true, if_false]
    exact ih

theorem scanContent_frozen (pat : List String) (occ : Int) :
    ∀ (rem : List String) (idx tm : Nat) (ti : Int), occ ≤ (tm : Int) →
    (scanContent pat occ rem idx tm ti).2 = ti := by
  intro rem idx tm ti
  induction rem, idx, tm, ti using scanContent.induct pat occ with
  | case1 idx tm ti => intro _; simp [scanContent]
  | case2 l rest idx tm ti h ih =>
    intro hle
    simp only [dite_eq_ite] at ih
    rw [scanContent]
    simp only [h, if_true]
    have hne : ¬ (((tm + 1 : Nat) : Int) = occ) := by push_cast; omega
    rw [if_neg hne] at ih ⊢
    exact ih (by omega)
  | case3 l rest idx tm ti h ih =>
    intro hle
    rw [scanContent]
    simp only [h, Bool.false_eq_true, if_false]
    exact ih hle

theorem scanV1_none (pat : List String) (occ : Int) :
    ∀ (rem : List String) (idx tm : Nat), occ ≤ (tm : Int) →
    scanV1 pat occ rem idx tm = none := by
  intro rem idx tm
  induction rem, idx, tm using scanV1.induct pat occ with
  | case1 idx tm => intro _; simp [scanV1]
  | case2 l rest idx tm h heq =>
    intro hle
    exfalso
    push_cast at heq
    omega
  | case3 l rest idx tm h heq ih =>
    intro hle
    rw [scanV1]
    simp only [h, if_true, heq, if_false]
    exact ih (by omega)
  | case4 l rest idx tm h ih =>
    intro hle
    rw [scanV1]
    simp only [h, Bool.false_eq_true, if_false]
    exact ih hle

theorem scanContent_snd_eq_scanV1 (pat : List String) (occ : Int) :
    ∀ (rem : List String) (idx tm : Nat) (ti : Int), (tm : Int) < occ →
    (scanContent pat occ rem idx tm ti).2 =
      (match scanV1 pat occ rem idx tm with
       | some j => ((j : Nat) : Int)
       | none => ti) := by
  intro rem idx tm ti
  induction rem, idx, tm, ti using scanContent.induct pat occ with
  | case1 idx tm ti => intro _; simp [scanContent, scanV1]
  | case2 l rest idx tm ti h ih =>
    intro hlt
    simp only [dite_eq_ite] at ih
    rw [scanContent, scanV1]
    simp only [h, if_true]
    by_cases heq : (((tm + 1 : Nat) : Int) = occ)
    · rw [if_pos heq, if_pos heq]
      exact scanContent_frozen pat occ _ _ _ _ (by omega)
    · rw [if_neg heq] at ih
      rw [if_neg heq, if_neg heq]
      exact ih (by push_cast at heq ⊢; omega)
  | case3 l rest idx tm ti h ih =>
    intro hlt
    rw [scanContent, scanV1]
    simp only [h, Bool.false_eq_true, if_false]
    exact ih hlt

/-! ## Helper lemmas about findContentLine -/

theorem fcl_totalMatches (sc : String) (occ : Int) :
    ∀ (l : List String) (i count : Nat) (f : Int),
    (findContentLineAux sc occ l i count f).totalMatches =
      count + l.countP (fun s => jsIncludes s sc) := by
  intro l
  induction l with
  | nil => intro i count f; simp [findContentLineAux]
  | cons line rest ih =>
    intro i count f
    by_cases h : jsIncludes line sc
    · rw [findContentLineAux]
      simp only [h, if_true]
      rw [ih, List.countP_cons]
      simp [h]
      omega
    · rw [findContentLineAux]
      simp only [h, Bool.false_eq_true, if_false]
      rw [ih, List.countP_cons]
      simp [h]

theorem fcl_stick (sc : String) (occ : Int) :
    ∀ (l : List String) (i count : Nat) (f : Int), f ≠ -1 →
    (findContentLineAux sc occ l i count f).index = f := by
  intro l
  induction l with
  | nil => intro i count f _; simp [findContentLineAux]
  | cons line rest ih =>
    intro i count f hf
    by_cases h : jsIncludes line sc
    · rw [findContentLineAux]
      simp only [h, if_true]
      have : ¬ (((count + 1 : Nat) : Int) = occ ∧ f = -1) := by
        intro hc
        exact hf hc.2
      rw [if_neg this]
      exact ih _ _ _ hf
    · rw [findContentLineAux]
      simp only [h, Bool.false_eq_true, if_false]
      exact ih _ _ _ hf

theorem fcl_frozen (sc : String) (occ : Int) :
    ∀ (l : List String) (i count : Nat) (f : Int), occ ≤ (count : Int) →
    (findContentLineAux sc occ l i count f).index = f := by
  intro l
  induction l with
  | nil => intro i count f _; simp [findContentLineAux]
  | cons line rest ih =>
    intro i count f hle
    by_cases h : jsIncludes line sc
    · rw [findContentLineAux]
      simp only [h, if_true]
      have : ¬ (((count + 1 : Nat) : Int) = occ ∧ f = -1) := by
        intro hc
        have := hc.1
        push_cast at this
        omega
      rw [if_neg this]
      exact ih _ _ _ (by push_cast; omega)
    · rw [findContentLineAux]
      simp only [h, Bool.false_eq_true, if_false]
      exact ih _ _ _ hle

theorem countP_take_pos (p : String → Bool) :
    ∀ (l : List String) (k : Nat), k < l.length → p (l.getD k "") = true →
    0 < (l.take (k + 1)).countP p := by
  intro l
  induction l with
  | nil => intro k hk _; simp at hk
  | cons x xs ih =>
    intro k hk hp
    cases k with
    | zero =>
      simp only [List.getD_cons_zero] at hp
      simp [List.countP_cons, hp]
    | succ k =>
      have := ih k (by simpa using hk) (by simpa using hp)
      simp only [List.take_succ_cons, List.countP_cons]
      omega

theorem fcl_found (sc : String) (occ : Int) :
    ∀ (l : List String) (i count : Nat), (count : Int) < occ →
    (findContentLineAux sc occ l i count (-1)).index ≠ -1 →
    ∃ k : Nat, k < l.length ∧ jsIncludes (l.getD k "") sc = true ∧
      ((count + (l.take (k + 1)).countP (fun s => jsIncludes s sc) : Nat) : Int) = occ ∧
      (findContentLineAux sc occ l i count (-1)).index = ((i + k : Nat) : Int) := by
  intro l
  induction l with
  | nil => intro i count hlt hne; simp [findContentLineAux] at hne
  | cons line rest ih =>
    intro i count hlt hne
    by_cases h : jsIncludes line sc
    · rw [findContentLineAux] at hne ⊢
      simp only [h, if_true] at hne ⊢
      by_cases heq : (((count + 1 : Nat) : Int) = occ)
      · rw [if_pos (⟨heq, trivial⟩ : ((count + 1 : Nat) : Int) = occ ∧ True)] at hne ⊢
        refine ⟨0, by simp, by simpa using h, ?_, ?_⟩
        · simp only [List.take_succ_cons, List.take_zero, List.countP_cons, List.countP_nil]
          simp [h]
          exact heq
        · rw [fcl_stick sc occ _ _ _ _ (by omega)]
          simp
      · have hcond : ¬ (((count + 1 : Nat) : Int) = occ ∧ True) := by
          simpa using heq
        rw [if_neg hcond] at hne ⊢
        obtain ⟨k, hk, hm, hc, hi⟩ :=
          ih (i + 1) (count + 1) (by push_cast at heq ⊢; omega) hne
        refine ⟨k + 1, by simpa using hk, by simpa using hm, ?_, ?_⟩
        · rw [List.take_succ_cons, List.countP_cons] at *
          simp only [h, if_true] at *
          push_cast at hc ⊢
          omega
        · rw [hi]
          congr 1
          omega
    · rw [findContentLineAux] at hne ⊢
      simp only [h, Bool.false_eq_true, if_false] at hne ⊢
      obtain ⟨k, hk, hm, hc, hi⟩ := ih (i + 1) count hlt hne
      refine ⟨k + 1, by simpa using hk, by simpa using hm, ?_, ?_⟩
      · rw [List.take_succ_cons, List.countP_cons] at *
        simp only [h] at *
        push_cast at hc ⊢
        simp at hc ⊢
        omega
      · rw [hi]
        congr 1
        omega

theorem fcl_complete (sc : String) (occ : Int) :
    ∀ (l : List String) (i count : Nat), (count : Int) < occ →
    ∀ k : Nat, k < l.length → jsIncludes (l.getD k "") sc = true →
    ((count + (l.take (k + 1)).countP (fun s => jsIncludes s sc) : Nat) : Int) = occ →
    (findContentLineAux sc occ l i count (-1)).index = ((i + k : Nat) : Int) := by
  intro l
  induction l with
  | nil => intro i count _ k hk; simp at hk
  | cons line rest ih =>
    intro i count hlt k hk hm hc
    cases k with
    | zero =>
      have h : jsIncludes line sc = true := by simpa using hm
      have heq : ((count + 1 : Nat) : Int) = occ := by
        simp only [List.take_succ_cons, List.take_zero, List.countP_cons, List.countP_nil,
          h, if_true] at hc
        push_cast at hc ⊢
        omega
      rw [findContentLineAux]
      simp only [h, if_true]
      rw [if_pos (⟨heq, trivial⟩ : ((count + 1 : Nat) : Int) = occ ∧ True)]
      rw [fcl_stick sc occ _ _ _ _ (by omega)]
      simp
    | succ k =>
      have hk' : k < rest.length := by simpa using hk
      have hm' : jsIncludes (rest.getD k "") sc = true := by simpa using hm
      by_cases h : jsIncludes line sc
      · have hpos : 0 < (rest.take (k + 1)).countP (fun s => jsIncludes s sc) :=
          countP_take_pos _ rest k hk' hm'
        have hc' : (((count + 1) + (rest.take (k + 1)).countP (fun s => jsIncludes s sc) : Nat) : Int) = occ := by
          rw [List.take_succ_cons, List.countP_cons] at hc
          simp only [h, if_true] at hc
          push_cast at hc ⊢
          omega
        have hlt' : ((count + 1 : Nat) : Int) < occ := by
          push_cast at hc' ⊢
          omega
        rw [findContentLineAux]
        simp only [h, if_true]
        have hcond : ¬ (((count + 1 : Nat) : Int) = occ ∧ True) := by
          simp only [and_true]
          omega
        rw [if_neg hcond]
        rw [ih (i + 1) (count + 1) hlt' k hk' hm' hc']
        congr 1
        omega
      · have hc' : ((count + (rest.take (k + 1)).countP (fun s => jsIncludes s sc) : Nat) : Int) = occ := by
          rw [List.take_succ_cons, List.countP_cons] at hc
          simp only [h] at hc
          push_cast at hc ⊢
          simp at hc ⊢
          omega
        rw [findContentLineAux]
        simp only [h, Bool.false_eq_true, if_false]
        rw [ih (i + 1) count hlt k hk' hm' hc']
        congr 1
        omega

/-! ## Helper lemmas about the search wrappers and applyOp -/

theorem countMatches_cons (pat : List String) (l : String) (rest : List String) :
    countMatches pat (l :: rest) =
      if pat.isPrefixOf (l :: rest) then 1 + countMatches pat (rest.drop (pat.length - 1))
      else countMatches pat rest := by
  rw [countMatches]

theorem findAndReplaceContent_totalMatches (lines : List String) (oldContent newContent : String)
    (occ : Int) :
    (findAndReplaceContent lines oldContent newContent occ).totalMatches =
      countMatches (splitNl oldContent) lines := by
  unfold findAndReplaceContent
  dsimp only
  split
  · simpa using scanContent_fst (splitNl oldContent) occ lines 0 0 (-1)
  · simpa using scanContent_fst (splitNl oldContent) occ lines 0 0 (-1)

theorem findAndDeleteContent_totalMatches (lines : List String) (content : String)
    (occ : Int) :
    (findAndDeleteContent lines content occ).totalMatches =
      countMatches (splitNl content) lines := by
  unfold findAndDeleteContent
  dsimp only
  split
  · simpa using scanContent_fst (splitNl content) occ lines 0 0 (-1)
  · simpa using scanContent_fst (splitNl content) occ lines 0 0 (-1)

theorem scanContent_snd_of_no_match (pat : List String) (occ : Int) :
    ∀ (rem : List String) (idx tm : Nat) (ti : Int), countMatches pat rem = 0 →
    (scanContent pat occ rem idx tm ti).2 = ti := by
  intro rem idx tm ti
  induction rem, idx, tm, ti using scanContent.induct pat occ with
  | case1 idx tm ti => intro _; simp [scanContent]
  | case2 l rest idx tm ti h ih =>
    intro hcm
    rw [countMatches_cons] at hcm
    simp only [h, if_true] at hcm
    omega
  | case3 l rest idx tm ti h ih =>
    intro hcm
    rw [countMatches_cons] at hcm
    simp only [h, Bool.false_eq_true, if_false] at hcm
    rw [scanContent]
    simp only [h, Bool.false_eq_true, if_false]
    exact ih hcm

theorem countMatches_single_zero (x : String) :
    ∀ (lines : List String), (∀ l ∈ lines, l ≠ x) → countMatches [x] lines = 0 := by
  intro lines
  induction lines with
  | nil => intro _; rw [countMatches]
  | cons l rest ih =>
    intro h
    have hne : ¬ ([x].isPrefixOf (l :: rest) = true) := by
      simp [List.isPrefixOf]
      intro hx
      exact absurd hx.symm (h l (by simp))
    rw [countMatches_cons]
    simp only [Bool.not_eq_true] at hne
    simp only [hne, Bool.false_eq_true, if_false]
    exact ih (fun a ha => h a (by simp [ha]))

theorem findAndReplaceContent_eq_v1 (lines : List String) (oldContent newContent : String)
    (occ : Int) :
    (findAndReplaceContentV1 lines oldContent newContent occ).lines =
      (findAndReplaceContent lines oldContent newContent occ).lines ∧
    (findAndReplaceContentV1 lines oldContent newContent occ).found =
      (findAndReplaceContent lines oldContent newContent occ).found := by
  unfold findAndReplaceContentV1 findAndReplaceContent
  dsimp only
  by_cases hocc : (0 : Int) < occ
  · rw [scanContent_snd_eq_scanV1 _ _ _ _ _ _ (by simpa using hocc)]
    cases hv : scanV1 (splitNl oldContent) occ lines 0 0 with
    | none => simp
    | some j =>
      have hne : ((j : Nat) : Int) ≠ -1 := by omega
      simp [hne]
  · have h1 : scanV1 (splitNl oldContent) occ lines 0 0 = none :=
      scanV1_none _ _ _ _ _ (by omega)
    have h2 : (scanContent (splitNl oldContent) occ lines 0 0 (-1)).2 = -1 :=
      scanContent_frozen _ _ _ _ _ _ (by omega)
    simp [h1, h2]

theorem findAndDeleteContent_eq_v1 (lines : List String) (content : String) (occ : Int) :
    (findAndDeleteContentV1 lines content occ).lines =
      (findAndDeleteContent lines content occ).lines ∧
    (findAndDeleteContentV1 lines content occ).found =
      (findAndDeleteContent lines content occ).found := by
  unfold findAndDeleteContentV1 findAndDeleteContent
  dsimp only
  by_cases hocc : (0 : Int) < occ
  · rw [scanContent_snd_eq_scanV1 _ _ _ _ _ _ (by simpa using hocc)]
    cases hv : scanV1 (splitNl content) occ lines 0 0 with
    | none => simp
    | some j =>
      have hne : ((j : Nat) : Int) ≠ -1 := by omega
      simp [hne]
  · have h1 : scanV1 (splitNl content) occ lines 0 0 = none :=
      scanV1_none _ _ _ _ _ (by omega)
    have h2 : (scanContent (splitNl content) occ lines 0 0 (-1)).2 = -1 :=
      scanContent_frozen _ _ _ _ _ _ (by omega)
    simp [h1, h2]

theorem applyOp_insert_block (lines ls : List String) (lineNumber : Int) :
    applyOp lines (DiffOperation.insert_block lineNumber ls) =
      if lineNumber < 0 ∨ (lines.length : Int) < lineNumber then
        Except.error (ApplyError.outOfBounds "insert_block" lineNumber lines.length)
      else
        Except.ok (lines.take lineNumber.toNat ++ ls ++ lines.drop lineNumber.toNat) := rfl

theorem applyOp_delete_range (lines : List String) (startLine endLine : Int) :
    applyOp lines (DiffOperation.delete_range startLine endLine) =
      if startLine < 1 ∨ (lines.length : Int) < endLine ∨ endLine < startLine then
        Except.error (ApplyError.invalidRange "delete_range" startLine endLine lines.length)
      else
        Except.ok (lines.take (startLine - 1).toNat ++ lines.drop endLine.toNat) := rfl

theorem applyOp_replace_range (lines ls : List String) (startLine endLine : Int) :
    applyOp lines (DiffOperation.replace_range startLine endLine ls) =
      if startLine < 1 ∨ (lines.length : Int) < endLine ∨ endLine < startLine then
        Except.error (ApplyError.invalidRange "replace_range" startLine endLine lines.length)
      else
        Except.ok (lines.take (startLine - 1).toNat ++ ls ++ lines.drop endLine.toNat) := rfl

theorem applyOp_insert_after (lines : List String) (searchContent content : String)
    (occurrence : Option Int) :
    applyOp lines (DiffOperation.insert_after searchContent content occurrence) =
      (if (findContentLine lines searchContent (occurrence.getD 1)).index = -1 then
        Except.error (ApplyError.contentNotFound "insert_after" (occurrence.getD 1)
          (findContentLine lines searchContent (occurrence.getD 1)).totalMatches)
      else
        Except.ok (lines.take
            ((findContentLine lines searchContent (occurrence.getD 1)).index + 1).toNat ++
          [content] ++
          lines.drop
            ((findContentLine lines searchContent (occurrence.getD 1)).index + 1).toNat)) := rfl

theorem applyOp_insert_before (lines : List String) (searchContent content : String)
    (occurrence : Option Int) :
    applyOp lines (DiffOperation.insert_before searchContent content occurrence) =
      (if (findContentLine lines searchContent (occurrence.getD 1)).index = -1 then
        Except.error (ApplyError.contentNotFound "insert_before" (occurrence.getD 1)
          (findContentLine lines searchContent (occurrence.getD 1)).totalMatches)
      else
        Except.ok (lines.take
            (findContentLine lines searchContent (occurrence.getD 1)).index.toNat ++
          [content] ++
          lines.drop
            (findContentLine lines searchContent (occurrence.getD 1)).index.toNat)) := rfl

theorem applyOp_replace_content (lines : List String) (oldContent newContent : String)
    (occurrence : Option Int) :
    applyOp lines (DiffOperation.replace_content oldContent newContent occurrence) =
      (if (findAndReplaceContent lines oldContent newContent (occurrence.getD 1)).found then
        Except.ok (findAndReplaceContent lines oldContent newContent (occurrence.getD 1)).lines
      else
        Except.error (ApplyError.contentNotFound "replace_content" (occurrence.getD 1)
          (findAndReplaceContent lines oldContent newContent (occurrence.getD 1)).totalMatches)) :=
  rfl

theorem applyOp_delete_content (lines : List String) (content : String)
    (occurrence : Option Int) :
    applyOp lines (DiffOperation.delete_content content occurrence) =
      (if (findAndDeleteContent lines content (occurrence.getD 1)).found then
        Except.ok (findAndDeleteContent lines content (occurrence.getD 1)).lines
      else
        Except.error (ApplyError.contentNotFound "delete_content" (occurrence.getD 1)
          (findAndDeleteContent lines content (occurrence.getD 1)).totalMatches)) := rfl

theorem findAndReplaceContent_found_iff (lines : List String) (oldContent newContent : String)
    (occ : Int) :
    (findAndReplaceContent lines oldContent newContent occ).found = true ↔
      (scanContent (splitNl oldContent) occ lines 0 0 (-1)).2 ≠ -1 := by
  unfold findAndReplaceContent
  dsimp only
  split
  · rename_i h
    simp [h]
  · rename_i h
    simp [not_not.mp h]

theorem findAndDeleteContent_found_iff (lines : List String) (content : String) (occ : Int) :
    (findAndDeleteContent lines content occ).found = true ↔
      (scanContent (splitNl content) occ lines 0 0 (-1)).2 ≠ -1 := by
  unfold findAndDeleteContent
  dsimp only
  split
  · rename_i h
    simp [h]
  · rename_i h
    simp [not_not.mp h]

/-! ## Claim theorems -/

/-- C1: applyDiff applies the operations strictly in order (the operation
loop is the stated fold), and on any operation failure the whole call
returns that failure and the resulting file content is exactly the
original; the joined modified lines are the file content exactly when
every operation succeeds. -/
theorem claim_C1_atomicity :
    ∀ (content : String) (ops : List DiffOperation),
      (∀ (pre : List String) (op : DiffOperation) (rest : List DiffOperation),
        applyDiff pre (op :: rest) =
          match applyOp pre op with
          | Except.ok mid => applyDiff mid rest
          | Except.error e => Except.error e) ∧
      (∀ e : ApplyError, applyDiff (splitNl content) ops = Except.error e →
        fileAfterApplyDiff content ops = content) ∧
      (∀ out : List String, applyDiff (splitNl content) ops = Except.ok out →
        fileAfterApplyDiff content ops = joinNl out) := by
  intro content ops
  refine ⟨fun pre op rest => rfl, fun e he => ?_, fun out ho => ?_⟩
  · unfold fileAfterApplyDiff
    rw [he]
  · unfold fileAfterApplyDiff
    rw [ho]

theorem claim_C1_atomicity_witness :
    fileAfterApplyDiff "a\nb" [DiffOperation.delete_range 99 99] = "a\nb" ∧
    fileAfterApplyDiff "a\nb" [DiffOperation.insert_block 0 ["z"]] = joinNl ["z", "a", "b"] :=
  ⟨(claim_C1_atomicity "a\nb" [DiffOperation.delete_range 99 99]).2.1
      (ApplyError.invalidRange "delete_range" 99 99 2) (by decide),
   (claim_C1_atomicity "a\nb" [DiffOperation.insert_block 0 ["z"]]).2.2
      ["z", "a", "b"] (by decide)⟩

/-- C6: each operation in a Diff is resolved against the line sequence as
left by all prior operations of the same Diff, not against the original
file; the stated two-operation Diff on a three-line file yields exactly
the claimed result. -/
theorem claim_C6_sequential_resolution :
    (∀ (lines : List String) (op : DiffOperation) (rest : List DiffOperation),
      applyDiff lines (op :: rest) =
        match applyOp lines op with
        | Except.ok lines1 => applyDiff lines1 rest
        | Except.error e => Except.error e) ∧
    applyDiff ["a", "b", "c"]
        [DiffOperation.delete_range 2 2, DiffOperation.insert_block 2 ["X"]] =
      Except.ok ["a", "c", "X"] :=
  ⟨fun _ _ _ => rfl, by decide⟩

/-- C7: replace_range substitutes the inclusive 1-indexed span with the
supplied lines, the net line count changing by the difference of lengths;
the stated end-to-end scenario yields exactly the claimed file content. -/
theorem claim_C7_replace_range :
    (∀ (lines ls : List String) (s e : Int),
      1 ≤ s → s ≤ e → e ≤ (lines.length : Int) →
      applyOp lines (DiffOperation.replace_range s e ls) =
        Except.ok (lines.take (s - 1).toNat ++ ls ++ lines.drop e.toNat) ∧
      ((lines.take (s - 1).toNat ++ ls ++ lines.drop e.toNat).length : Int) =
        (lines.length : Int) - (e - s + 1) + (ls.length : Int)) ∧
    fileAfterApplyDiff "line 1\nline 2\nline 3\nline 4\nline 5"
        [DiffOperation.replace_range 2 4 ["replaced line 1", "replaced line 2"]] =
      "line 1\nreplaced line 1\nreplaced line 2\nline 5" := by
  constructor
  · intro lines ls s e h1 h2 h3
    constructor
    · rw [applyOp_replace_range, if_neg (by omega)]
    · simp only [List.length_append, List.length_take, List.length_drop]
      push_cast
      omega
  · decide

theorem claim_C7_replace_range_witness :
    applyOp ["a", "b", "c"] (DiffOperation.replace_range 1 2 ["z"]) =
      Except.ok ((["a", "b", "c"] : List String).take ((1 : Int) - 1).toNat ++ ["z"] ++
        (["a", "b", "c"] : List String).drop (2 : Int).toNat) :=
  (claim_C7_replace_range.1 ["a", "b", "c"] ["z"] 1 2 (by decide) (by decide)
    (by decide)).1

/-- C9: the earlier generation's findAndReplaceContent/findAndDeleteContent
(which return as soon as the target occurrence is found) and the later
versions (which complete the scan to count total matches) return the same
resulting line sequence and the same found flag on every input. -/
theorem claim_C9_generations_agree :
    ∀ (lines : List String) (oldContent newContent content : String) (occ : Int),
      (findAndReplaceContentV1 lines oldContent newContent occ).lines =
        (findAndReplaceContent lines oldContent newContent occ).lines ∧
      (findAndReplaceContentV1 lines oldContent newContent occ).found =
        (findAndReplaceContent lines oldContent newContent occ).found ∧
      (findAndDeleteContentV1 lines content occ).lines =
        (findAndDeleteContent lines content occ).lines ∧
      (findAndDeleteContentV1 lines content occ).found =
        (findAndDeleteContent lines content occ).found := by
  intro lines oldContent newContent content occ
  exact ⟨(findAndReplaceContent_eq_v1 lines oldContent newContent occ).1,
    (findAndReplaceContent_eq_v1 lines oldContent newContent occ).2,
    (findAndDeleteContent_eq_v1 lines content occ).1,
    (findAndDeleteContent_eq_v1 lines content occ).2⟩

/-- C10: every content-anchored operation invoked with occurrence ≤ 0
fails with a content-not-found error even when the pattern occurs, and the
error still reports the actual total number of matches present. -/
theorem claim_C10_nonpositive_occurrence :
    ∀ (lines : List String) (sc c oldContent newContent content : String) (occ : Int),
      occ ≤ 0 →
      applyOp lines (DiffOperation.insert_after sc c (some occ)) =
        Except.error (ApplyError.contentNotFound "insert_after" occ
          (lines.countP (fun x => jsIncludes x sc))) ∧
      applyOp lines (DiffOperation.insert_before sc c (some occ)) =
        Except.error (ApplyError.contentNotFound "insert_before" occ
          (lines.countP (fun x => jsIncludes x sc))) ∧
      applyOp lines (DiffOperation.replace_content oldContent newContent (some occ)) =
        Except.error (ApplyError.contentNotFound "replace_content" occ
          (countMatches (splitNl oldContent) lines)) ∧
      applyOp lines (DiffOperation.delete_content content (some occ)) =
        Except.error (ApplyError.contentNotFound "delete_content" occ
          (countMatches (splitNl content) lines)) := by
  intro lines sc c oldContent newContent content occ hocc
  have hidx : (findContentLine lines sc occ).index = -1 :=
    fcl_frozen sc occ lines 0 0 (-1) (by simpa using hocc)
  have htot : (findContentLine lines sc occ).totalMatches =
      lines.countP (fun x => jsIncludes x sc) := by
    simpa using fcl_totalMatches sc occ lines 0 0 (-1)
  have hs1 : (scanContent (splitNl oldContent) occ lines 0 0 (-1)).2 = -1 :=
    scanContent_frozen _ _ _ _ _ _ (by simpa using hocc)
  have hs2 : (scanContent (splitNl content) occ lines 0 0 (-1)).2 = -1 :=
    scanContent_frozen _ _ _ _ _ _ (by simpa using hocc)
  have hf1 : ¬((findAndReplaceContent lines oldContent newContent occ).found = true) := by
    rw [findAndReplaceContent_found_iff]
    simp [hs1]
  have hf2 : ¬((findAndDeleteContent lines content occ).found = true) := by
    rw [findAndDeleteContent_found_iff]
    simp [hs2]
  refine ⟨?_, ?_, ?_, ?_⟩
  · rw [applyOp_insert_after]
    simp only [Option.getD_some]
    rw [if_pos hidx, htot]
  · rw [applyOp_insert_before]
    simp only [Option.getD_some]
    rw [if_pos hidx, htot]
  · rw [applyOp_replace_content]
    simp only [Option.getD_some]
    rw [if_neg hf1, findAndReplaceContent_totalMatches]
  · rw [applyOp_delete_content]
    simp only [Option.getD_some]
    rw [if_neg hf2, findAndDeleteContent_totalMatches]

theorem claim_C10_nonpositive_occurrence_witness :
    (applyOp ["a"] (DiffOperation.insert_after "a" "c" (some 0)) =
      Except.error (ApplyError.contentNotFound "insert_after" 0
        ((["a"] : List String).countP (fun x => jsIncludes x "a")))) ∧
    (applyOp ["a"] (DiffOperation.insert_before "a" "c" (some 0)) =
      Except.error (ApplyError.contentNotFound "insert_before" 0
        ((["a"] : List String).countP (fun x => jsIncludes x "a")))) ∧
    (applyOp ["a"] (DiffOperation.replace_content "a" "b" (some 0)) =
      Except.error (ApplyError.contentNotFound "replace_content" 0
        (countMatches (splitNl "a") ["a"]))) ∧
    (applyOp ["a"] (DiffOperation.delete_content "a" (some 0)) =
      Except.error (ApplyError.contentNotFound "delete_content" 0
        (countMatches (splitNl "a") ["a"]))) ∧
    (["a"] : List String).countP (fun x => jsIncludes x "a") = 1 :=
  have h := claim_C10_nonpositive_occurrence ["a"] "a" "c" "a" "b" "a" 0 (by decide)
  ⟨h.1, h.2.1, h.2.2.1, h.2.2.2, by decide⟩

/-- C5: whenever a content-anchored operation fails, the reported error
carries the total number of matches actually found in the current line
sequence (0 when the pattern is absent); in particular delete_content of
a line "nonexistent" that occurs nowhere fails with a total of 0. -/
theorem claim_C5_error_reports_totals :
    (∀ (lines : List String) (sc c : String) (occurrence : Option Int) (e : ApplyError),
      applyOp lines (DiffOperation.insert_after sc c occurrence) = Except.error e →
        e = ApplyError.contentNotFound "insert_after" (occurrence.getD 1)
          (lines.countP (fun x => jsIncludes x sc))) ∧
    (∀ (lines : List String) (sc c : String) (occurrence : Option Int) (e : ApplyError),
      applyOp lines (DiffOperation.insert_before sc c occurrence) = Except.error e →
        e = ApplyError.contentNotFound "insert_before" (occurrence.getD 1)
          (lines.countP (fun x => jsIncludes x sc))) ∧
    (∀ (lines : List String) (oldContent newContent : String) (occurrence : Option Int)
        (e : ApplyError),
      applyOp lines (DiffOperation.replace_content oldContent newContent occurrence) =
          Except.error e →
        e = ApplyError.contentNotFound "replace_content" (occurrence.getD 1)
          (countMatches (splitNl oldContent) lines)) ∧
    (∀ (lines : List String) (content : String) (occurrence : Option Int) (e : ApplyError),
      applyOp lines (DiffOperation.delete_content content occurrence) = Except.error e →
        e = ApplyError.contentNotFound "delete_content" (occurrence.getD 1)
          (countMatches (splitNl content) lines)) ∧
    (∀ lines : List String, (∀ l ∈ lines, l ≠ "nonexistent") →
      applyOp lines (DiffOperation.delete_content "nonexistent" none) =
        Except.error (ApplyError.contentNotFound "delete_content" 1 0)) := by
  refine ⟨?_, ?_, ?_, ?_, ?_⟩
  · intro lines sc c occurrence e he
    rw [applyOp_insert_after] at he
    by_cases hidx : (findContentLine lines sc (occurrence.getD 1)).index = -1
    · rw [if_pos hidx] at he
      simp only [Except.error.injEq] at he
      rw [← he]
      congr 1
      simpa using fcl_totalMatches sc (occurrence.getD 1) lines 0 0 (-1)
    · rw [if_neg hidx] at he
      simp at he
  · intro lines sc c occurrence e he
    rw [applyOp_insert_before] at he
    by_cases hidx : (findContentLine lines sc (occurrence.getD 1)).index = -1
    · rw [if_pos hidx] at he
      simp only [Except.error.injEq] at he
      rw [← he]
      congr 1
      simpa using fcl_totalMatches sc (occurrence.getD 1) lines 0 0 (-1)
    · rw [if_neg hidx] at he
      simp at he
  · intro lines oldContent newContent occurrence e he
    rw [applyOp_replace_content] at he
    by_cases hf : (findAndReplaceContent lines oldContent newContent (occurrence.getD 1)).found
    · rw [if_pos hf] at he
      simp at he
    · rw [if_neg hf] at he
      simp only [Except.error.injEq] at he
      rw [← he, findAndReplaceContent_totalMatches]
  · intro lines content occurrence e he
    rw [applyOp_delete_content] at he
    by_cases hf : (findAndDeleteContent lines content (occurrence.getD 1)).found
    · rw [if_pos hf] at he
      simp at he
    · rw [if_neg hf] at he
      simp only [Except.error.injEq] at he
      rw [← he, findAndDeleteContent_totalMatches]
  · intro lines hno
    rw [applyOp_delete_content]
    simp only [Option.getD_none]
    have hcm : countMatches (splitNl "nonexistent") lines = 0 := by
      rw [show splitNl "nonexistent" = ["nonexistent"] from rfl]
      exact countMatches_single_zero _ lines hno
    have hscan : (scanContent (splitNl "nonexistent") 1 lines 0 0 (-1)).2 = -1 :=
      scanContent_snd_of_no_match _ _ lines 0 0 (-1) hcm
    have hf : ¬((findAndDeleteContent lines "nonexistent" 1).found = true) := by
      rw [findAndDeleteContent_found_iff]
      simp [hscan]
    rw [if_neg hf, findAndDeleteContent_totalMatches, hcm]

theorem claim_C5_error_reports_totals_witness :
    (ApplyError.contentNotFound "insert_after" 1 0 =
      ApplyError.contentNotFound "insert_after" ((none : Option Int).getD 1)
        ((["a"] : List String).countP (fun x => jsIncludes x "z"))) ∧
    (ApplyError.contentNotFound "insert_before" 1 0 =
      ApplyError.contentNotFound "insert_before" ((none : Option Int).getD 1)
        ((["a"] : List String).countP (fun x => jsIncludes x "z"))) ∧
    (ApplyError.contentNotFound "replace_content" 1 0 =
      ApplyError.contentNotFound "replace_content" ((none : Option Int).getD 1)
        (countMatches (splitNl "z") ["a"])) ∧
    (ApplyError.contentNotFound "delete_content" 1 0 =
      ApplyError.contentNotFound "delete_content" ((none : Option Int).getD 1)
        (countMatches (splitNl "z") ["a"])) ∧
    applyOp ["a"] (DiffOperation.delete_content "nonexistent" none) =
      Except.error (ApplyError.contentNotFound "delete_content" 1 0) :=
  ⟨claim_C5_error_reports_totals.1 ["a"] "z" "c" none _ (by decide),
   claim_C5_error_reports_totals.2.1 ["a"] "z" "c" none _ (by decide),
   claim_C5_error_reports_totals.2.2.1 ["a"] "z" "w" none _
     (by simp [applyOp_replace_content, findAndReplaceContent, splitNl, splitNlAux,
       scanContent]),
   claim_C5_error_reports_totals.2.2.2.1 ["a"] "z" none _
     (by simp [applyOp_delete_content, findAndDeleteContent, splitNl, splitNlAux,
       scanContent]),
   claim_C5_error_reports_totals.2.2.2.2 ["a"] (by decide)⟩

/-- C2: delete_range succeeds exactly when 1 ≤ startLine ≤ endLine ≤ len;
on success it removes exactly the inclusive 1-indexed span (the length
decreases by endLine − startLine + 1, lines before the span keep their
positions, and lines after the span shift down); in every other case it
fails. -/
theorem claim_C2_delete_range :
    ∀ (lines : List String) (s e : Int),
      ((∃ out, applyOp lines (DiffOperation.delete_range s e) = Except.ok out) ↔
        1 ≤ s ∧ s ≤ e ∧ e ≤ (lines.length : Int)) ∧
      (∀ out, applyOp lines (DiffOperation.delete_range s e) = Except.ok out →
        out = lines.take (s - 1).toNat ++ lines.drop e.toNat ∧
        (out.length : Int) + (e - s + 1) = (lines.length : Int) ∧
        (∀ i : Nat, (i : Int) < s - 1 → out[i]? = lines[i]?) ∧
        (∀ j : Nat, out[(s - 1).toNat + j]? = lines[e.toNat + j]?)) := by
  intro lines s e
  by_cases hg : s < 1 ∨ (lines.length : Int) < e ∨ e < s
  · constructor
    · constructor
      · rintro ⟨out, hout⟩
        rw [applyOp_delete_range, if_pos hg] at hout
        simp at hout
      · intro hb
        exact absurd hb (by omega)
    · intro out hout
      rw [applyOp_delete_range, if_pos hg] at hout
      simp at hout
  · constructor
    · exact ⟨fun _ => by omega,
        fun _ => ⟨_, by rw [applyOp_delete_range, if_neg hg]⟩⟩
    · intro out hout
      rw [applyOp_delete_range, if_neg hg] at hout
      simp only [Except.ok.injEq] at hout
      obtain rfl := hout.symm
      refine ⟨rfl, ?_, ?_, ?_⟩
      · simp only [List.length_append, List.length_take, List.length_drop]
        push_cast
        omega
      · intro i hi
        have hitake : i < (s - 1).toNat := by omega
        have hlen : i < (lines.take (s - 1).toNat).length := by
          rw [List.length_take]
          omega
        rw [List.getElem?_append_left hlen, List.getElem?_take_of_lt hitake]
      · intro j
        have hlen : (lines.take (s - 1).toNat).length = (s - 1).toNat := by
          rw [List.length_take]
          omega
        rw [List.getElem?_append_right (by rw [hlen]; omega), hlen,
          show (s - 1).toNat + j - (s - 1).toNat = j by omega, List.getElem?_drop]

theorem claim_C2_delete_range_witness :
    applyOp ["a", "b", "c"] (DiffOperation.delete_range 2 3) = Except.ok ["a"] ∧
    ((["a"] : List String).length : Int) + ((3 : Int) - 2 + 1) =
      ((["a", "b", "c"] : List String).length : Int) :=
  ⟨by decide, ((claim_C2_delete_range ["a", "b", "c"] 2 3).2 ["a"] (by decide)).2.1⟩

/-- C3: for insert_after a line matches when it contains searchContent as
a substring, matches are counted top to bottom, and the occurrence-th
matching line receives a single new line spliced immediately after it; in
particular the stated three-line example yields exactly the four stated
lines. -/
theorem claim_C3_insert_after_occurrence :
    (∀ (lines : List String) (sc c : String) (occ : Int), 1 ≤ occ → ∀ out,
      (applyOp lines (DiffOperation.insert_after sc c (some occ)) = Except.ok out ↔
        ∃ j : Nat, j < lines.length ∧ jsIncludes (lines.getD j "") sc = true ∧
          (((lines.take (j + 1)).countP (fun x => jsIncludes x sc) : Nat) : Int) = occ ∧
          out = lines.take (j + 1) ++ [c] ++ lines.drop (j + 1))) ∧
    applyOp ["return 1;", "return 2;", "return 3;"]
        (DiffOperation.insert_after "return" "// x" (some 2)) =
      Except.ok ["return 1;", "return 2;", "// x", "return 3;"] := by
  constructor
  · intro lines sc c occ hocc out
    rw [applyOp_insert_after]
    simp only [Option.getD_some]
    constructor
    · intro h
      by_cases hidx : (findContentLine lines sc occ).index = -1
      · rw [if_pos hidx] at h
        simp at h
      · rw [if_neg hidx] at h
        obtain ⟨k, hk, hm, hc, hi⟩ := fcl_found sc occ lines 0 0 (by omega) hidx
        refine ⟨k, hk, hm, by simpa using hc, ?_⟩
        have hidx2 : (findContentLine lines sc occ).index = (k : Int) := by simpa using hi
        rw [show ((findContentLine lines sc occ).index + 1).toNat = k + 1 by
          rw [hidx2]; omega] at h
        simp only [Except.ok.injEq] at h
        exact h.symm
    · rintro ⟨j, hj, hm, hc, rfl⟩
      have hidx2 : (findContentLine lines sc occ).index = ((0 + j : Nat) : Int) :=
        fcl_complete sc occ lines 0 0 (by omega) j hj hm (by simpa using hc)
      have hidx3 : (findContentLine lines sc occ).index = (j : Int) := by simpa using hidx2
      rw [if_neg (by rw [hidx3]; omega)]
      rw [show ((findContentLine lines sc occ).index + 1).toNat = j + 1 by
        rw [hidx3]; omega]
  · decide

theorem claim_C3_insert_after_occurrence_witness :
    applyOp ["a", "ab"] (DiffOperation.insert_after "a" "N" (some 2)) =
      Except.ok ["a", "ab", "N"] :=
  (claim_C3_insert_after_occurrence.1 ["a", "ab"] "a" "N" 2 (by decide)
      ["a", "ab", "N"]).mpr
    ⟨1, by decide, by decide, by decide, by decide⟩

/-- C4: for replace_content and delete_content, multi-line matches are
counted left to right and are non-overlapping: the total reported equals
the non-overlapping count in which a matched run is consumed whole while
a non-matching position advances by one line; on ["x","x","x"] the 2-line
pattern has exactly one match and no second occurrence. -/
theorem claim_C4_nonoverlapping_matches :
    (∀ (lines : List String) (oldContent newContent : String) (occ : Int),
      (findAndReplaceContent lines oldContent newContent occ).totalMatches =
        countMatches (splitNl oldContent) lines) ∧
    (∀ (lines : List String) (content : String) (occ : Int),
      (findAndDeleteContent lines content occ).totalMatches =
        countMatches (splitNl content) lines) ∧
    (∀ (l : String) (rest : List String) (oldContent newContent : String) (occ : Int),
      (splitNl oldContent).isPrefixOf (l :: rest) = true →
        (findAndReplaceContent (l :: rest) oldContent newContent occ).totalMatches =
          1 + (findAndReplaceContent (rest.drop ((splitNl oldContent).length - 1))
                oldContent newContent occ).totalMatches) ∧
    (∀ (l : String) (rest : List String) (oldContent newContent : String) (occ : Int),
      (splitNl oldContent).isPrefixOf (l :: rest) = false →
        (findAndReplaceContent (l :: rest) oldContent newContent occ).totalMatches =
          (findAndReplaceContent rest oldContent newContent occ).totalMatches) ∧
    (findAndReplaceContent ["x", "x", "x"] "x\nx" "y" 1).totalMatches = 1 ∧
    (findAndReplaceContent ["x", "x", "x"] "x\nx" "y" 2).found = false := by
  refine ⟨findAndReplaceContent_totalMatches, findAndDeleteContent_totalMatches,
    ?_, ?_, ?_, ?_⟩
  · intro l rest oldContent newContent occ h
    rw [findAndReplaceContent_totalMatches, findAndReplaceContent_totalMatches,
      countMatches_cons]
    simp [h]
  · intro l rest oldContent newContent occ h
    rw [findAndReplaceContent_totalMatches, findAndReplaceContent_totalMatches,
      countMatches_cons]
    simp [h]
  · simp [findAndReplaceContent, splitNl, splitNlAux, scanContent]
  · simp [findAndReplaceContent, splitNl, splitNlAux, scanContent]

theorem claim_C4_nonoverlapping_matches_witness :
    (findAndReplaceContent ["x", "y"] "x" "z" 1).totalMatches =
      1 + (findAndReplaceContent ((["y"] : List String).drop ((splitNl "x").length - 1))
            "x" "z" 1).totalMatches ∧
    (findAndReplaceContent ["y", "x"] "x" "z" 1).totalMatches =
      (findAndReplaceContent ["x"] "x" "z" 1).totalMatches :=
  ⟨claim_C4_nonoverlapping_matches.2.2.1 "x" ["y"] "x" "z" 1 (by decide),
   claim_C4_nonoverlapping_matches.2.2.2.1 "y" ["x"] "x" "z" 1 (by decide)⟩

/-- C8 counterexample: with the empty block ls = [] at position p = 0 on
L = ["a"], the prescribed second operation delete_range(p+1, p+|ls|) =
delete_range(1, 0) has startLine > endLine, so the two-operation diff
fails instead of restoring L. -/
theorem claim_C8_roundtrip_cx :
    applyDiff ["a"] [DiffOperation.insert_block 0 ([] : List String),
      DiffOperation.delete_range (0 + 1) (0 + ((([] : List String).length : Nat) : Int))] ≠
    Except.ok ["a"] := by decide

/-- C8 (amended): for every line sequence L, every position p with
0 ≤ p ≤ |L| and every NONEMPTY block of lines ls, applying
insert_block(lineNumber = p, lines = ls) followed by
delete_range(startLine = p+1, endLine = p+|ls|) restores L exactly. -/
theorem claim_C8_roundtrip :
    ∀ (L ls : List String) (p : Int), ls ≠ [] → 0 ≤ p → p ≤ (L.length : Int) →
      applyDiff L [DiffOperation.insert_block p ls,
        DiffOperation.delete_range (p + 1) (p + (ls.length : Int))] = Except.ok L := by
  intro L ls p hls h0 hp
  have hlspos : 0 < ls.length := List.length_pos.mpr hls
  have htake : (L.take p.toNat).length = p.toNat := by
    rw [List.length_take]
    omega
  have h1 : applyOp L (DiffOperation.insert_block p ls) =
      Except.ok (L.take p.toNat ++ ls ++ L.drop p.toNat) := by
    rw [applyOp_insert_block, if_neg (by omega)]
  have hmid : (L.take p.toNat ++ ls ++ L.drop p.toNat).length = L.length + ls.length := by
    simp only [List.length_append, List.length_take, List.length_drop]
    omega
  have h2 : applyOp (L.take p.toNat ++ ls ++ L.drop p.toNat)
      (DiffOperation.delete_range (p + 1) (p + (ls.length : Int))) = Except.ok L := by
    rw [applyOp_delete_range, if_neg (by rw [hmid]; push_cast; omega)]
    congr 1
    rw [show ((p + 1 : Int) - 1).toNat = p.toNat by omega,
      show (p + (ls.length : Int)).toNat = p.toNat + ls.length by omega]
    have ht : (L.take p.toNat ++ ls ++ L.drop p.toNat).take p.toNat = L.take p.toNat := by
      rw [List.append_assoc]
      exact List.take_left' htake
    have hd : (L.take p.toNat ++ ls ++ L.drop p.toNat).drop (p.toNat + ls.length) =
        L.drop p.toNat := by
      apply List.drop_left'
      rw [List.length_append, htake]
    rw [ht, hd, List.take_append_drop]
  simp only [applyDiff, h1, h2]

theorem claim_C8_roundtrip_witness :
    applyDiff ["a"] [DiffOperation.insert_block 1 ["b"],
      DiffOperation.delete_range (1 + 1) (1 + ((["b"] : List String).length : Int))] =
      Except.ok ["a"] :=
  claim_C8_roundtrip ["a"] ["b"] 1 (by decide) (by decide) (by decide)
